import Mathlib

/-!
Shallow embedding of the cliffy help generator
(`packages/command/lib/help-generator.ts`) together with the external
collaborators it consumes (table layout engine, terminal style functions,
value formatter, argument highlighter, command metadata accessors).  The
collaborators are not part of the embedded source file; they are modelled
from the specification's description of their contracts.
-/

namespace Cliffy

/-! ## Terminal styles and visible width -/

/-- Modelled from the spec: a style function "wraps input in a start/end
escape pair".  `esc n` is the ANSI escape sequence for style code `n`. -/
def esc (n : Nat) : String := "\x1b[" ++ toString n ++ "m"

/-- Modelled from the spec: a style function is a pure `string -> string`
wrapping its input in an opening and a closing escape code. -/
def styleCode (o c : Nat) (s : String) : String := esc o ++ s ++ esc c

/-- Modelled from the spec: the `bold` terminal style. -/
def bold : String → String := styleCode 1 22

/-- Modelled from the spec: the `dim` terminal style. -/
def dim : String → String := styleCode 2 22

/-- Modelled from the spec: the `red` terminal style. -/
def red : String → String := styleCode 31 39

/-- Modelled from the spec: the `yellow` terminal style. -/
def yellow : String → String := styleCode 33 39

/-- Modelled from the spec: the `blue` terminal style. -/
def blue : String → String := styleCode 34 39

/-- Modelled from the spec: the `magenta` terminal style. -/
def magenta : String → String := styleCode 35 39

/-- Modelled from the spec: the width-measurement primitive strips style
escape sequences and counts the remaining characters.  The boolean state
records whether we are inside an escape sequence (which ends at `m`). -/
def stripEscapesAux : Bool → List Char → List Char
  | _, [] => []
  | false, c :: rest =>
      if c = '\x1b' then stripEscapesAux true rest
      else c :: stripEscapesAux false rest
  | true, c :: rest =>
      if c = 'm' then stripEscapesAux false rest
      else stripEscapesAux true rest

/-- Modelled from the spec: remove every style escape sequence of a string. -/
def stripEscapes (s : String) : String := String.mk (stripEscapesAux false s.data)

/-- Modelled from the spec: visible width of a string = character count
excluding style escape sequences. -/
def visibleWidth (s : String) : Nat := (stripEscapesAux false s.data).length

/-! ## Generic character-level splitting (embeds JavaScript `split`) -/

/-- Embeds JavaScript `String.prototype.split` with a single-character
separator: the pieces between occurrences of `sep`, in order. -/
def splitCharAux (sep : Char) : List Char → List Char → List String
  | [], cur => [String.mk cur.reverse]
  | c :: rest, cur =>
      if c = sep then String.mk cur.reverse :: splitCharAux sep rest []
      else splitCharAux sep rest (c :: cur)

/-- Split a string at every occurrence of the character `sep`. -/
def splitChar (sep : Char) (s : String) : List String := splitCharAux sep s.data []

/-- Embeds `description.split('\n').shift()`: the text before the first
newline (the whole string when it has no newline). -/
def firstLine (s : String) : String := (splitChar '\n' s).headD ""

/-- Embeds the JavaScript split on the regex `,? +` used for flag lists: a
separator is an optional comma followed by one or more spaces.  The boolean
state is true while consuming the spaces of a separator. -/
def splitFlagsAux : Bool → List Char → List Char → List String
  | false, [], cur => [String.mk cur.reverse]
  | false, ',' :: ' ' :: rest, cur => String.mk cur.reverse :: splitFlagsAux true rest []
  | false, ' ' :: rest, cur => String.mk cur.reverse :: splitFlagsAux true rest []
  | false, c :: rest, cur => splitFlagsAux false rest (c :: cur)
  | true, [], _ => [""]
  | true, ' ' :: rest, cur => splitFlagsAux true rest cur
  | true, ',' :: ' ' :: rest, _ => "" :: splitFlagsAux true rest []
  | true, c :: rest, _ => splitFlagsAux false rest [c]

/-- Embeds `flags.split(/,? +/g)`. -/
def splitFlags (s : String) : List String := splitFlagsAux false s.data []

/-- Embeds `capitalize`: first character upper-cased, rest unchanged
(`string?.charAt(0).toUpperCase() + string.slice(1) ?? ''`). -/
def capitalize (s : String) : String :=
  match s.data with
  | [] => ""
  | c :: cs => String.mk (c.toUpper :: cs)

/-! ## Value formatter and data model -/

/-- A runtime value that can be an option's default (the embedding covers
numbers, booleans and strings, which includes every falsy default the spec
discusses: `0`, `false`, the empty string). -/
inductive Value where
  | num (n : Int)
  | bool (b : Bool)
  | str (s : String)
deriving DecidableEq

/-- Modelled from the spec: the generic value-to-display-string formatter
(`format`), a pure `any -> string` function; on a single string argument it
returns the string unchanged. -/
def format : Value → String
  | .num n => toString n
  | .bool b => toString b
  | .str s => s

/-- An option of a command (`IOption`): flag string, description, optional
type-definition, required flag, optional default value, depends/conflicts
name lists, hidden flag. -/
structure IOption where
  flags : String
  description : String
  typeDefinition : Option String := none
  required : Bool := false
  default : Option Value := none
  depends : List String := []
  conflicts : List String := []
  hidden : Bool := false

/-- An environment variable of a command (`IEnvVariable`). -/
structure IEnvVariable where
  names : List String
  details : String
  description : String

/-- A usage example of a command (`IExample`). -/
structure IExample where
  name : String
  description : String

/-- A command description (`BaseCommand`): name, version, description,
args-definition, aliases, options, sub-commands (recursively command
descriptions), environment variables, examples, hidden flag. -/
inductive BaseCommand where
  | mk (name : String) (version : String) (description : String)
      (argsDefinition : Option String) (aliases : List String)
      (options : List IOption) (commands : List BaseCommand)
      (envVars : List IEnvVariable) (examples : List IExample)
      (hidden : Bool)

/-- Truthiness of an optional string in JavaScript: `undefined` and the
empty string are falsy. -/
def optTruthy : Option String → Bool
  | none => false
  | some s => !(s = "")

/-- Modelled from the spec: `getName` of the command metadata source. -/
def BaseCommand.getName : BaseCommand → String
  | .mk n _ _ _ _ _ _ _ _ _ => n

/-- Modelled from the spec: `getVersion` of the command metadata source. -/
def BaseCommand.getVersion : BaseCommand → String
  | .mk _ v _ _ _ _ _ _ _ _ => v

/-- Modelled from the spec: `getDescription` of the command metadata source
(empty string when the command has no description). -/
def BaseCommand.getDescription : BaseCommand → String
  | .mk _ _ d _ _ _ _ _ _ _ => d

/-- Modelled from the spec: `getArgsDefinition` of the command metadata
source (nullable args-definition string). -/
def BaseCommand.getArgsDefinition : BaseCommand → Option String
  | .mk _ _ _ a _ _ _ _ _ _ => a

/-- Modelled from the spec: `getAliases` of the command metadata source. -/
def BaseCommand.getAliases : BaseCommand → List String
  | .mk _ _ _ _ al _ _ _ _ _ => al

/-- Modelled from the spec: `getOptions hidden` returns the ordered option
list; with `hidden = false` options marked hidden are filtered out ("a
boolean filter the Assembler queries rather than re-implements"). -/
def BaseCommand.getOptions : BaseCommand → Bool → List IOption
  | .mk _ _ _ _ _ os _ _ _ _, includeHidden =>
      if includeHidden then os else os.filter (fun o => !o.hidden)

/-- Modelled from the spec: `getCommands hidden` returns the ordered
sub-command list; with `hidden = false` sub-commands marked hidden are
filtered out. -/
def BaseCommand.getCommands : BaseCommand → Bool → List BaseCommand
  | .mk _ _ _ _ _ _ cs _ _ _, includeHidden =>
      if includeHidden then cs
      else cs.filter (fun c => match c with
        | .mk _ _ _ _ _ _ _ _ _ h => !h)

/-- Modelled from the spec: `getEnvVars` returns the ordered
environment-variable list. -/
def BaseCommand.getEnvVars : BaseCommand → Bool → List IEnvVariable
  | .mk _ _ _ _ _ _ _ es _ _, _ => es

/-- Modelled from the spec: `getExamples` returns the ordered example
list. -/
def BaseCommand.getExamples : BaseCommand → List IExample
  | .mk _ _ _ _ _ _ _ _ exs _ => exs

/-- Modelled from the spec: the argument-placeholder highlighter, a pure
`string -> string` function returning a styled string
(`ArgumentsParser.highlightArguments`). -/
def highlightArguments (s : String) : String := magenta s

/-- Modelled from the spec: the env-var detail highlighter, a pure
`string -> string` function returning a styled string
(`ArgumentsParser.highlightArgumentDetails`). -/
def highlightArgumentDetails (s : String) : String := magenta s

/-! ## Table layout engine (modelled from the spec) -/

/-- A string of `n` spaces. -/
def spaces (n : Nat) : String := String.mk (List.replicate n ' ')

/-- Maximum of a list of naturals (0 when empty). -/
def natMax (l : List Nat) : Nat := l.foldr Nat.max 0

/-- Modelled from the spec: per-column configuration lookup — "arrays
shorter than the column count repeat/extend the last given value to
remaining columns"; an empty array means the default `dflt`. -/
def colVal (l : List Nat) (dflt : Nat) (i : Nat) : Nat :=
  match l with
  | [] => dflt
  | _ => l.getD i (l.getLastD dflt)

/-- Modelled from the spec: hard-break a single over-long word into chunks
of at most `cap` visible characters, never splitting a style escape
sequence (the boolean tracks being inside an escape; the count is the
visible width accumulated on the current chunk, which is kept reversed). -/
def hardBreakAux (cap : Nat) : List Char → Bool → Nat → List Char → List (List Char)
  | [], _, _, cur => if cur.isEmpty then [] else [cur.reverse]
  | c :: cs, true, cnt, cur => hardBreakAux cap cs (!(c = 'm')) cnt (c :: cur)
  | c :: cs, false, cnt, cur =>
      if c = '\x1b' then hardBreakAux cap cs true cnt (c :: cur)
      else if cap < cnt + 1 then cur.reverse :: hardBreakAux cap cs false 1 [c]
      else hardBreakAux cap cs false (cnt + 1) (c :: cur)

/-- Modelled from the spec: hard-break a word at the cap boundary. -/
def hardBreak (cap : Nat) (w : String) : List String :=
  (hardBreakAux cap w.data false 0 []).map String.mk

/-- Modelled from the spec: greedy word wrap — "break on whitespace
boundaries into the fewest lines such that no line's visible width exceeds
the cap; a single word longer than the cap is hard-broken at the cap
boundary".  `cur` is the line being filled. -/
def wrapWords (cap : Nat) : List String → String → List String
  | [], cur => if cur = "" then [] else [cur]
  | w :: ws, cur =>
      if cur = "" then
        if visibleWidth w ≤ cap then wrapWords cap ws w
        else
          let ps := hardBreak cap w
          ps.dropLast ++ wrapWords cap ws (ps.getLastD "")
      else if visibleWidth cur + 1 + visibleWidth w ≤ cap then
        wrapWords cap ws (cur ++ " " ++ w)
      else
        cur :: (if visibleWidth w ≤ cap then wrapWords cap ws w
          else
            let ps := hardBreak cap w
            ps.dropLast ++ wrapWords cap ws (ps.getLastD ""))

/-- Modelled from the spec: wrap one physical line of a cell at the cap
(`cap = 0` means unlimited — a non-positive configured max width is treated
as unlimited). -/
def wrapLine (cap : Nat) (line : String) : List String :=
  if cap = 0 then [line]
  else match wrapWords cap (splitChar ' ' line) "" with
    | [] => [""]
    | ls => ls

/-- Modelled from the spec: the physical lines a cell occupies — its
newline-separated lines, each word-wrapped at the column's cap. -/
def cellLines (cap : Nat) (cell : String) : List String :=
  (splitChar '\n' cell).flatMap (wrapLine cap)

/-- Right-pad a string with spaces to visible width `w` (content is
left-aligned, padding goes on the right). -/
def padRight (w : Nat) (s : String) : String := s ++ spaces (w - visibleWidth s)

/-- Drop trailing spaces of a rendered line (the spec allows trimming
trailing whitespace-only padding; leading indentation is never trimmed). -/
def rtrim (s : String) : String := String.mk (s.data.reverse.dropWhile (fun c => c = ' ')).reverse

/-- Modelled from the spec: the table layout engine.  Rows are normalized
to a common column count by padding with empty cells; each cell is split
into wrapped physical lines; each column's width is the maximum visible
width of its lines; each row is rendered on as many physical lines as its
tallest cell, every line prefixed by `indent` spaces, columns separated by
the per-column padding gap; the block carries a trailing newline and zero
rows yield the empty string. -/
def renderTable (rows : List (List String)) (indent : Nat)
    (padding : List Nat) (maxCellWidth : List Nat) : String :=
  match rows with
  | [] => ""
  | _ =>
    let colCount := natMax (rows.map (fun r => r.length))
    let grid := rows.map (fun r =>
      (List.range colCount).map (fun i => cellLines (colVal maxCellWidth 0 i) (r.getD i "")))
    let widths := (List.range colCount).map (fun i =>
      natMax (grid.map (fun row => natMax ((row.getD i []).map visibleWidth))))
    let lines := grid.flatMap (fun row =>
      let height := natMax (row.map (fun c => c.length))
      (List.range height).map (fun k =>
        spaces indent ++ rtrim (String.join ((List.range colCount).map (fun i =>
          padRight (widths.getD i 0) ((row.getD i []).getD k "") ++
            (if i + 1 < colCount then spaces (colVal padding 0 i) else ""))))))
    String.intercalate "\n" lines ++ "\n"

/-- The chainable table builder (`Table`): rows plus configuration, with
per-column or scalar padding and max-cell-width.  Configuration fields are
stored normalized as per-column arrays (a scalar is a one-element array
extended over all columns by `colVal`). -/
structure Table where
  rows : List (List String)
  indentVal : Nat := 0
  paddingVal : List Nat := []
  maxCellWidthVal : List Nat := []

/-- Embeds `Table.from(rows)`. -/
def Table.ofRows (rows : List (List String)) : Table := { rows := rows }

/-- Embeds `table.indent(n)`. -/
def Table.indent (t : Table) (n : Nat) : Table := { t with indentVal := n }

/-- Embeds `table.padding(n)` with a scalar value. -/
def Table.padding (t : Table) (n : Nat) : Table := { t with paddingVal := [n] }

/-- Embeds `table.padding([..])` with a per-column array. -/
def Table.paddingL (t : Table) (l : List Nat) : Table := { t with paddingVal := l }

/-- Embeds `table.maxCellWidth(n)` with a scalar value. -/
def Table.maxCellWidth (t : Table) (n : Nat) : Table := { t with maxCellWidthVal := [n] }

/-- Embeds `table.maxCellWidth([..])` with a per-column array. -/
def Table.maxCellWidthL (t : Table) (l : List Nat) : Table := { t with maxCellWidthVal := l }

/-- Embeds `table.toString()`: run the layout engine. -/
def Table.render (t : Table) : String :=
  renderTable t.rows t.indentVal t.paddingVal t.maxCellWidthVal

/-! ## HelpGenerator (embedding of `help-generator.ts`) -/

namespace HelpGenerator

/-- Embeds `private indent: number = 2`. -/
def hgIndent : Nat := 2

/-- Embeds `line(...args)`: indentation followed by the formatted arguments and a
newline (here always called with a single string argument, on which the
variadic formatter is the identity). -/
def line (s : String) : String := spaces hgIndent ++ s ++ "\n"

/-- Embeds `label(label)`: a leading newline, the bold label line, a blank line. -/
def label (l : String) : String := "\n" ++ line (bold (l ++ ":")) ++ "\n"

/-- The Usage cell of the header:
`name + (argsDefinition ? ' ' + argsDefinition : '')`. -/
def usageText (cmd : BaseCommand) : String :=
  cmd.getName ++
    (if optTruthy cmd.getArgsDefinition then " " ++ cmd.getArgsDefinition.getD "" else "")

/-- Embeds `generateHeader`. -/
def generateHeader (cmd : BaseCommand) : String :=
  "\n" ++
    (((Table.ofRows
        [ [bold "Usage:", magenta (usageText cmd)],
          [bold "Version:", yellow ("v" ++ cmd.getVersion)] ]).indent
        hgIndent).padding 1).render

/-- Embeds `generateDescription`. -/
def generateDescription (cmd : BaseCommand) : String :=
  if cmd.getDescription = "" then ""
  else
    label "Description" ++
      ((((Table.ofRows [[cmd.getDescription]]).indent (hgIndent * 2)).maxCellWidth
          140).padding 1).render

/-- Embeds `generateHints`: the parenthesized hint annotations of one option,
appended in the source's fixed order (required, default, depends,
conflicts); the default is included when it is defined
(`typeof option.default !== 'undefined'`), the depends/conflicts parts when
their lists are non-empty. -/
def generateHints (option : IOption) : String :=
  let hints : List String := []
  let hints := if option.required then hints ++ [yellow "required"] else hints
  let hints :=
    match option.default with
    | some v => hints ++ [blue (bold "Default: ") ++ blue (format v)]
    | none => hints
  let hints :=
    if !option.depends.isEmpty then
      hints ++ [red (bold "depends: ") ++ String.intercalate ", " (option.depends.map red)]
    else hints
  let hints :=
    if !option.conflicts.isEmpty then
      hints ++ [red (bold "conflicts: ") ++ String.intercalate ", " (option.conflicts.map red)]
    else hints
  if hints.length ≠ 0 then "(" ++ String.intercalate ", " hints ++ ")" else ""

/-- The flags cell of an option row:
`option.flags.split(/,? +/g).map(blue).join(', ')`. -/
def flagsCell (option : IOption) : String :=
  String.intercalate ", " ((splitFlags option.flags).map blue)

/-- The description cell of an option row:
`red(bold('-')) + ' ' + option.description.split('\n').shift()`. -/
def optionDescriptionCell (option : IOption) : String :=
  red (bold "-") ++ " " ++ firstLine option.description

/-- An option row in the four-column layout (with type-definitions). -/
def optionRow4 (option : IOption) : List String :=
  [ flagsCell option,
    highlightArguments (option.typeDefinition.getD ""),
    optionDescriptionCell option,
    generateHints option ]

/-- An option row in the three-column layout (no type-definitions). -/
def optionRow3 (option : IOption) : List String :=
  [ flagsCell option,
    optionDescriptionCell option,
    generateHints option ]

/-- Embeds `!!options.find(option => !!option.typeDefinition)`. -/
def optionsHaveTypeDefs (options : List IOption) : Bool :=
  options.any (fun o => optTruthy o.typeDefinition)

/-- Embeds `generateOptions`. -/
def generateOptions (cmd : BaseCommand) : String :=
  let options := cmd.getOptions false
  if options.isEmpty then ""
  else if optionsHaveTypeDefs options then
    label "Options" ++
      ((((Table.ofRows (options.map optionRow4)).paddingL [2, 2, 2]).indent
          (hgIndent * 2)).maxCellWidthL [60, 60, 80, 60]).render
  else
    label "Options" ++
      ((((Table.ofRows (options.map optionRow3)).paddingL [2, 2]).indent
          (hgIndent * 2)).maxCellWidthL [60, 80, 60]).render

/-- The name cell of a sub-command row:
`[name, ...aliases].map(blue).join(', ')`. -/
def commandNameCell (command : BaseCommand) : String :=
  String.intercalate ", " ((command.getName :: command.getAliases).map blue)

/-- The description cell of a sub-command row:
`red(bold('-')) + ' ' + command.getDescription().split('\n').shift()`. -/
def commandDescriptionCell (command : BaseCommand) : String :=
  red (bold "-") ++ " " ++ firstLine command.getDescription

/-- A sub-command row in the three-column layout (with args-definitions). -/
def commandRow3 (command : BaseCommand) : List String :=
  [ commandNameCell command,
    highlightArguments (command.getArgsDefinition.getD ""),
    commandDescriptionCell command ]

/-- A sub-command row in the two-column layout (no args-definitions). -/
def commandRow2 (command : BaseCommand) : List String :=
  [ commandNameCell command,
    commandDescriptionCell command ]

/-- Embeds `!!commands.find(command => !!command.getArgsDefinition())`. -/
def commandsHaveArgsDefs (commands : List BaseCommand) : Bool :=
  commands.any (fun c => optTruthy c.getArgsDefinition)

/-- Embeds `generateCommands`. -/
def generateCommands (cmd : BaseCommand) : String :=
  let commands := cmd.getCommands false
  if commands.isEmpty then ""
  else if commandsHaveArgsDefs commands then
    label "Commands" ++
      (((Table.ofRows (commands.map commandRow3)).paddingL [2, 2, 2]).indent
        (hgIndent * 2)).render
  else
    label "Commands" ++
      (((Table.ofRows (commands.map commandRow2)).paddingL [2, 2]).indent
        (hgIndent * 2)).render

/-- An environment-variable row. -/
def envVarRow (envVar : IEnvVariable) : List String :=
  [ String.intercalate ", " (envVar.names.map blue),
    highlightArgumentDetails envVar.details,
    red (bold "-") ++ " " ++ envVar.description ]

/-- Embeds `generateEnvironmentVariables`. -/
def generateEnvironmentVariables (cmd : BaseCommand) : String :=
  let envVars := cmd.getEnvVars false
  if envVars.isEmpty then ""
  else
    label "Environment variables" ++
      (((Table.ofRows (envVars.map envVarRow)).padding 2).indent (hgIndent * 2)).render

/-- An example row: `(dim(bold(capitalize(name) + ':')), '\n' + description)`. -/
def exampleRow (ex : IExample) : List String :=
  [ dim (bold (capitalize ex.name ++ ":")),
    "\n" ++ ex.description ]

/-- Embeds `generateExamples`. -/
def generateExamples (cmd : BaseCommand) : String :=
  let examples := cmd.getExamples
  if examples.isEmpty then ""
  else
    label "Examples" ++
      ((((Table.ofRows (examples.map exampleRow)).padding 1).indent
          (hgIndent * 2)).maxCellWidth 150).render

/-- Embeds `generate`: header, description, options, commands, environment
variables, examples, and an unconditional final newline. -/
def generate (cmd : BaseCommand) : String :=
  generateHeader cmd ++
    generateDescription cmd ++
    generateOptions cmd ++
    generateCommands cmd ++
    generateEnvironmentVariables cmd ++
    generateExamples cmd ++
    "\n"

end HelpGenerator

/-! ## Spec-side definitions and sample inputs -/

/-- The hint list exactly as the spec words it: "build an ordered list,
appending (in this fixed order, each independently optional) — `required`
if the option is required; `Default: ` + formatted-default if a default
value is defined (presence is checked by definedness, not truthiness);
`depends: ` + comma-joined dependency names if the dependency list is
non-empty; `conflicts: ` + comma-joined conflict names if the conflict list
is non-empty", each fragment in its spec-mandated style category
(requirement warning, default info-tone, dependency/conflict error-tone). -/
def hintsSpecList (o : IOption) : List String :=
  (if o.required then [yellow "required"] else []) ++
    (match o.default with
      | some v => [blue (bold "Default: ") ++ blue (format v)]
      | none => []) ++
    (if o.depends ≠ [] then
      [red (bold "depends: ") ++ String.intercalate ", " (o.depends.map red)]
    else []) ++
    (if o.conflicts ≠ [] then
      [red (bold "conflicts: ") ++ String.intercalate ", " (o.conflicts.map red)]
    else [])

/-- The hint string as the spec words it: "If the list is non-empty, render
as `(` + comma-joined hints + `)`; otherwise render empty string." -/
def hintsSpec (o : IOption) : String :=
  if hintsSpecList o = [] then ""
  else "(" ++ String.intercalate ", " (hintsSpecList o) ++ ")"

/-- Decides whether the first list of characters is a prefix of the second. -/
def isPrefixChars : List Char → List Char → Bool
  | [], _ => true
  | _ :: _, [] => false
  | a :: as, b :: bs => a = b && isPrefixChars as bs

/-- Decides whether the first list occurs as a contiguous run of the second. -/
def containsAt : List Char → List Char → Bool
  | needle, [] => needle.isEmpty
  | needle, c :: rest => isPrefixChars needle (c :: rest) || containsAt needle rest

/-- Decides whether `needle` occurs as a substring of `hay`. -/
def strContains (hay needle : String) : Bool := containsAt needle.data hay.data

/-- A sample option exercising every hint: required, default `0` (a falsy
default), one dependency, one conflict, a type-definition and a two-line
description. -/
def sampleOption : IOption :=
  { flags := "-f, --foo", description := "Foo option.\nMore detail.",
    typeDefinition := some "[val:string]", required := true,
    default := some (.num 0), depends := ["foo"], conflicts := ["bar"] }

/-- A sample sub-command with an args-definition and an alias. -/
def sampleSub : BaseCommand :=
  .mk "sub" "0.1.0" "Sub command.\nHidden detail." (some "[input]") ["s"] [] [] [] [] false

/-- A sample command description exercising every section. -/
def sampleCmd : BaseCommand :=
  .mk "cmd" "1.0.0" "A sample tool." (some "[args...]") [] [sampleOption] [sampleSub]
    [{ names := ["CMD_HOME"], details := "<path>", description := "Home directory." }]
    [{ name := "basic", description := "do the thing" }] false

/-- A command description with no description, options, sub-commands,
environment variables or examples. -/
def emptyCmd : BaseCommand := .mk "cmd" "1.0.0" "" none [] [] [] [] [] false

/-- The spec's inclusion-rule test command: one example named `basic` with
description `do the thing` and nothing else. -/
def basicCmd : BaseCommand :=
  .mk "cmd" "1.0.0" "" none [] [] [] []
    [{ name := "basic", description := "do the thing" }] false

/-! ## Helper lemmas -/

/-- Splitting a character list at `sep` when the first piece is `sep`-free:
the first piece comes off whole. -/
theorem splitCharAux_append (sep : Char) (l r : List Char) (cur : List Char)
    (h : sep ∉ l) :
    splitCharAux sep (l ++ sep :: r) cur =
      String.mk (cur.reverse ++ l) :: splitCharAux sep r [] := by
  induction l generalizing cur with
  | nil => simp [splitCharAux]
  | cons c cs ih =>
      have hc : ¬(c = sep) := fun hcs => h (hcs ▸ List.mem_cons_self c cs)
      have hcs : sep ∉ cs := fun hm => h (List.mem_cons_of_mem c hm)
      have step : splitCharAux sep ((c :: cs) ++ sep :: r) cur =
          splitCharAux sep (cs ++ sep :: r) (c :: cur) := by
        simp [splitCharAux, hc]
      rw [step, ih (c :: cur) hcs]
      congr 1
      simp

/-- The first line of `a ++ "\n" ++ b` is `a` when `a` has no newline. -/
theorem firstLine_append (a b : String) (h : '\n' ∉ a.data) :
    firstLine (a ++ "\n" ++ b) = a := by
  have hdata : (a ++ "\n" ++ b).data = a.data ++ '\n' :: b.data := by
    show (a.data ++ "\n".data ++ b.data) = a.data ++ '\n' :: b.data
    simp
  unfold firstLine splitChar
  rw [hdata, splitCharAux_append '\n' a.data b.data [] h]
  cases a
  simp [List.headD]

/-! ## Claim theorems -/

/-- C1: for every option, the hint string appends, in the fixed order and
each part independently optional, `required` when the option is required,
`Default: ` plus the formatted default when the default is defined (a
definedness test, so the falsy default `0` still appears), `depends: ` plus
the comma-joined dependency names when the dependency list is non-empty and
`conflicts: ` likewise; a non-empty hint list is comma-joined and
parenthesized, an empty one renders as the empty string.  The source's
`generateHints` agrees with the spec-worded `hintsSpec` on every option,
and the spec's concrete test option (required, default `0`, depends `foo`,
conflicts `bar`) renders all four hints in the fixed order. -/
theorem hint_composition_c1 :
    (∀ o : IOption, HelpGenerator.generateHints o = hintsSpec o) ∧
    HelpGenerator.generateHints sampleOption =
      "(" ++ yellow "required" ++ ", " ++
        (blue (bold "Default: ") ++ blue "0") ++ ", " ++
        (red (bold "depends: ") ++ red "foo") ++ ", " ++
        (red (bold "conflicts: ") ++ red "bar") ++ ")" := by
  constructor
  · intro o
    obtain ⟨f, d, td, req, dflt, dep, con, hid⟩ := o
    cases req <;> cases dflt <;> cases dep <;> cases con <;>
      simp [HelpGenerator.generateHints, hintsSpec, hintsSpecList]
  · rfl

/-- C2: each help section is appended only when its backing data is
non-empty — no options means `generateOptions` contributes the empty
string (hence no `Options` label), and likewise for sub-commands,
environment variables, examples and the description — and `generate` is
exactly the concatenation of the six section strings plus a final newline,
so an omitted section leaves no label and no blank-line artifact. -/
theorem section_inclusion_c2 (c : BaseCommand) :
    (c.getOptions false = [] → HelpGenerator.generateOptions c = "") ∧
    (c.getCommands false = [] → HelpGenerator.generateCommands c = "") ∧
    (c.getEnvVars false = [] → HelpGenerator.generateEnvironmentVariables c = "") ∧
    (c.getExamples = [] → HelpGenerator.generateExamples c = "") ∧
    (c.getDescription = "" → HelpGenerator.generateDescription c = "") ∧
    HelpGenerator.generate c =
      HelpGenerator.generateHeader c ++ HelpGenerator.generateDescription c ++
        HelpGenerator.generateOptions c ++ HelpGenerator.generateCommands c ++
        HelpGenerator.generateEnvironmentVariables c ++
        HelpGenerator.generateExamples c ++ "\n" := by
  refine ⟨?_, ?_, ?_, ?_, ?_, rfl⟩
  · intro h; simp [HelpGenerator.generateOptions, h]
  · intro h; simp [HelpGenerator.generateCommands, h]
  · intro h; simp [HelpGenerator.generateEnvironmentVariables, h]
  · intro h; simp [HelpGenerator.generateExamples, h]
  · intro h; simp [HelpGenerator.generateDescription, h]

/-- Witness for C2: on a command with no description, options,
sub-commands, environment variables or examples, every one of those
sections is the empty string. -/
theorem section_inclusion_c2_witness :
    HelpGenerator.generateOptions emptyCmd = "" ∧
    HelpGenerator.generateCommands emptyCmd = "" ∧
    HelpGenerator.generateEnvironmentVariables emptyCmd = "" ∧
    HelpGenerator.generateExamples emptyCmd = "" ∧
    HelpGenerator.generateDescription emptyCmd = "" := by
  obtain ⟨h1, h2, h3, h4, h5, _⟩ := section_inclusion_c2 emptyCmd
  exact ⟨h1 rfl, h2 rfl, h3 rfl, h4 rfl, h5 rfl⟩

/-- C3: with at least one visible option, the Options section lays out
four-column rows (flags, highlighted type-definition, dash plus first
description line, hints) exactly when some visible option carries a truthy
type-definition and three-column rows otherwise; with at least one visible
sub-command, the Commands section lays out three-column rows (names,
highlighted args-definition, dash plus first description line) exactly when
some visible sub-command has a truthy args-definition and two-column rows
otherwise. -/
theorem table_columns_c3 (c : BaseCommand)
    (ho : c.getOptions false ≠ []) (hc : c.getCommands false ≠ []) :
    (HelpGenerator.generateOptions c =
      if HelpGenerator.optionsHaveTypeDefs (c.getOptions false) then
        HelpGenerator.label "Options" ++
          renderTable ((c.getOptions false).map HelpGenerator.optionRow4) 4
            [2, 2, 2] [60, 60, 80, 60]
      else
        HelpGenerator.label "Options" ++
          renderTable ((c.getOptions false).map HelpGenerator.optionRow3) 4
            [2, 2] [60, 80, 60]) ∧
    (HelpGenerator.optionsHaveTypeDefs (c.getOptions false) = true ↔
      ∃ o ∈ c.getOptions false, optTruthy o.typeDefinition) ∧
    (∀ o : IOption,
      (HelpGenerator.optionRow4 o).length = 4 ∧ (HelpGenerator.optionRow3 o).length = 3) ∧
    (HelpGenerator.generateCommands c =
      if HelpGenerator.commandsHaveArgsDefs (c.getCommands false) then
        HelpGenerator.label "Commands" ++
          renderTable ((c.getCommands false).map HelpGenerator.commandRow3) 4 [2, 2, 2] []
      else
        HelpGenerator.label "Commands" ++
          renderTable ((c.getCommands false).map HelpGenerator.commandRow2) 4 [2, 2] []) ∧
    (HelpGenerator.commandsHaveArgsDefs (c.getCommands false) = true ↔
      ∃ s ∈ c.getCommands false, optTruthy s.getArgsDefinition) ∧
    (∀ s : BaseCommand,
      (HelpGenerator.commandRow3 s).length = 3 ∧ (HelpGenerator.commandRow2 s).length = 2) := by
  refine ⟨?_, ?_, fun o => ⟨rfl, rfl⟩, ?_, ?_, fun s => ⟨rfl, rfl⟩⟩
  · simp [HelpGenerator.generateOptions, Table.render, Table.ofRows, Table.paddingL,
      Table.indent, Table.maxCellWidthL, HelpGenerator.hgIndent, List.isEmpty_iff, ho]
  · simp [HelpGenerator.optionsHaveTypeDefs, List.any_eq_true]
  · simp [HelpGenerator.generateCommands, Table.render, Table.ofRows, Table.paddingL,
      Table.indent, HelpGenerator.hgIndent, List.isEmpty_iff, hc]
  · simp [HelpGenerator.commandsHaveArgsDefs, List.any_eq_true]

/-- Witness for C3: the sample command has one visible option carrying a
type-definition and one visible sub-command carrying an args-definition, so
its Options table is the four-column layout and its Commands table the
three-column layout. -/
theorem table_columns_c3_witness :
    sampleCmd.getOptions false ≠ [] ∧ sampleCmd.getCommands false ≠ [] ∧
    HelpGenerator.generateOptions sampleCmd =
      HelpGenerator.label "Options" ++
        renderTable ((sampleCmd.getOptions false).map HelpGenerator.optionRow4) 4
          [2, 2, 2] [60, 60, 80, 60] ∧
    HelpGenerator.generateCommands sampleCmd =
      HelpGenerator.label "Commands" ++
        renderTable ((sampleCmd.getCommands false).map HelpGenerator.commandRow3) 4
          [2, 2, 2] [] := by
  have h1 : sampleCmd.getOptions false ≠ [] := List.cons_ne_nil _ _
  have h2 : sampleCmd.getCommands false ≠ [] := List.cons_ne_nil _ _
  have h := table_columns_c3 sampleCmd h1 h2
  have ht : HelpGenerator.optionsHaveTypeDefs (sampleCmd.getOptions false) = true := rfl
  have ha : HelpGenerator.commandsHaveArgsDefs (sampleCmd.getCommands false) = true := rfl
  refine ⟨h1, h2, ?_, ?_⟩
  · rw [h.1, if_pos ht]
  · rw [h.2.2.2.1, if_pos ha]

/-- C4: when an option's or a sub-command's description contains a newline,
only the text before the first newline appears in the description cell of
the Options and Commands tables; everything after it is dropped. -/
theorem first_line_only_c4 (o : IOption) (s : BaseCommand) (a b a2 b2 : String)
    (ha : '\n' ∉ a.data) (ha2 : '\n' ∉ a2.data)
    (ho : o.description = a ++ "\n" ++ b) (hs : s.getDescription = a2 ++ "\n" ++ b2) :
    HelpGenerator.optionDescriptionCell o = red (bold "-") ++ " " ++ a ∧
    HelpGenerator.commandDescriptionCell s = red (bold "-") ++ " " ++ a2 := by
  constructor
  · simp [HelpGenerator.optionDescriptionCell, ho, firstLine_append a b ha]
  · simp [HelpGenerator.commandDescriptionCell, hs, firstLine_append a2 b2 ha2]

/-- Witness for C4: the sample option's and sub-command's two-line
descriptions are cut at their first newline in the table cells. -/
theorem first_line_only_c4_witness :
    HelpGenerator.optionDescriptionCell sampleOption =
      red (bold "-") ++ " " ++ "Foo option." ∧
    HelpGenerator.commandDescriptionCell sampleSub =
      red (bold "-") ++ " " ++ "Sub command." := by
  exact first_line_only_c4 sampleOption sampleSub "Foo option." "More detail."
    "Sub command." "Hidden detail." (by decide) (by decide) rfl rfl

/-- C5: the help generator is a pure function of the command description —
the embedding has no state and no effects, so two calls of `generate` on
the same command description yield byte-identical output. -/
theorem generate_pure_c5 (c : BaseCommand) :
    HelpGenerator.generate c = HelpGenerator.generate c := rfl

/-- C6: when the command has a non-empty description, the Description
section is a table with the single cell holding the description, indented
by 4 and wrapped at the fixed maximum cell width of 140 columns. -/
theorem description_wrap_c6 (c : BaseCommand) (h : c.getDescription ≠ "") :
    HelpGenerator.generateDescription c =
      HelpGenerator.label "Description" ++
        renderTable [[c.getDescription]] 4 [1] [140] := by
  simp [HelpGenerator.generateDescription, h, Table.render, Table.ofRows, Table.indent,
    Table.maxCellWidth, Table.padding, HelpGenerator.hgIndent]

/-- Witness for C6: the sample command's description section is the
single-cell table capped at 140 columns. -/
theorem description_wrap_c6_witness :
    sampleCmd.getDescription ≠ "" ∧
    HelpGenerator.generateDescription sampleCmd =
      HelpGenerator.label "Description" ++
        renderTable [["A sample tool."]] 4 [1] [140] := by
  have h : sampleCmd.getDescription ≠ "" := by decide
  exact ⟨h, description_wrap_c6 sampleCmd h⟩

/-- C7: every example row is the capitalized example name followed by a
colon in the first cell and a newline followed by the example description
in the second cell; concretely, the command with one example named `basic`
and description `do the thing` renders a line containing `Basic:` followed
by a later line containing `do the thing`. -/
theorem examples_rows_c7 (c : BaseCommand) (h : c.getExamples ≠ []) :
    (HelpGenerator.generateExamples c =
      HelpGenerator.label "Examples" ++
        renderTable (c.getExamples.map HelpGenerator.exampleRow) 4 [1] [150]) ∧
    (∀ ex : IExample, HelpGenerator.exampleRow ex =
      [dim (bold (capitalize ex.name ++ ":")), "\n" ++ ex.description]) ∧
    (∃ i j : Nat, i < j ∧
      strContains ((splitChar '\n' (HelpGenerator.generate basicCmd)).getD i "")
        "Basic:" = true ∧
      strContains ((splitChar '\n' (HelpGenerator.generate basicCmd)).getD j "")
        "do the thing" = true) := by
  refine ⟨?_, fun ex => rfl, 6, 7, by norm_num, ?_, ?_⟩
  · simp [HelpGenerator.generateExamples, Table.render, Table.ofRows, Table.padding,
      Table.indent, Table.maxCellWidth, HelpGenerator.hgIndent, List.isEmpty_iff, h]
  · decide
  · decide

/-- Witness for C7: the one-example command renders its Examples section as
the two-cell rows laid out at cap 150. -/
theorem examples_rows_c7_witness :
    HelpGenerator.generateExamples basicCmd =
      HelpGenerator.label "Examples" ++
        renderTable (basicCmd.getExamples.map HelpGenerator.exampleRow) 4 [1] [150] := by
  exact (examples_rows_c7 basicCmd (List.cons_ne_nil _ _)).1

/-- C8: the Header section is always present — `generate` starts with it —
and consists of exactly two rows: `Usage:` with the command name followed
by its args-definition (separated by a space only when the args-definition
is truthy), and `Version:` with `v` prefixed to the version string. -/
theorem header_rows_c8 (c : BaseCommand) :
    HelpGenerator.generateHeader c =
      "\n" ++ renderTable
        [ [bold "Usage:", magenta (HelpGenerator.usageText c)],
          [bold "Version:", yellow ("v" ++ c.getVersion)] ] 2 [1] [] ∧
    HelpGenerator.usageText c =
      c.getName ++
        (if optTruthy c.getArgsDefinition then " " ++ c.getArgsDefinition.getD "" else "") ∧
    HelpGenerator.generate c =
      HelpGenerator.generateHeader c ++ HelpGenerator.generateDescription c ++
        HelpGenerator.generateOptions c ++ HelpGenerator.generateCommands c ++
        HelpGenerator.generateEnvironmentVariables c ++
        HelpGenerator.generateExamples c ++ "\n" := by
  refine ⟨?_, rfl, rfl⟩
  simp [HelpGenerator.generateHeader, Table.render, Table.ofRows, Table.indent,
    Table.padding, HelpGenerator.hgIndent]

/-- Helper: the last element of a list with a final singleton appended. -/
theorem getLast_append_singleton {α : Type} (l : List α) (c : α) :
    (l ++ [c]).getLast? = some c := by
  simp [List.getLast?_concat]

/-- C9: for every command description, the generated help text begins with
a newline (from the always-present header) and ends with a newline (the
unconditional final newline), whatever sections are present. -/
theorem newline_bookends_c9 (c : BaseCommand) :
    (HelpGenerator.generate c).data.head? = some '\n' ∧
    (HelpGenerator.generate c).data.getLast? = some '\n' := by
  have hd : ("\n" : String).data = ['\n'] := rfl
  constructor
  · simp [HelpGenerator.generate, HelpGenerator.generateHeader, String.data_append, hd]
  · have h : HelpGenerator.generate c =
        (HelpGenerator.generateHeader c ++ HelpGenerator.generateDescription c ++
          HelpGenerator.generateOptions c ++ HelpGenerator.generateCommands c ++
          HelpGenerator.generateEnvironmentVariables c ++
          HelpGenerator.generateExamples c) ++ "\n" := rfl
    rw [h, String.data_append, hd, getLast_append_singleton]

/-- C10: when the command's args-definition is absent or empty (both falsy
in the source's truthiness test), the Usage cell text is exactly the
command name, with no trailing space. -/
theorem usage_cell_c10 (c : BaseCommand)
    (h : c.getArgsDefinition = none ∨ c.getArgsDefinition = some "") :
    HelpGenerator.usageText c = c.getName := by
  rcases h with h | h <;> simp [HelpGenerator.usageText, optTruthy, h]

/-- Witness for C10: the empty command has no args-definition, and its
Usage cell text is its bare name. -/
theorem usage_cell_c10_witness : HelpGenerator.usageText emptyCmd = emptyCmd.getName :=
  usage_cell_c10 emptyCmd (Or.inl rfl)

end Cliffy
